import Mathlib

/-!
Shallow embedding of the arcadia-db buffer pool manager.

The embedding covers:
* the page abstraction (`Page`, src/src/src/shared/definitions.rs);
* the dirty-flag bit operations (`PageTableItemMetadataFlags`,
  src/src/storage/buffer_pool_manager/buffer_pool.rs lines 61-95);
* the buffer pool state and its implemented operations `get_page` and
  `mutate_page` (src/src/storage/buffer_pool_manager/buffer_pool.rs lines
  181-269), with Rust panics (failed asserts, unwraps of `None`,
  `copy_from_slice` length mismatches) modelled as explicit error results
  that carry the state observable at the moment of the panic;
* the free-frame scan (`FrameBuffer::find_first_free_index`,
  src/src/src/buffer_pool_manager/frame_buffer.rs lines 29-37);
* the buffer pool manager (src/src/src/buffer_pool_manager/mod.rs);
* spec-modelled definitions for the operations whose bodies are `todo` in
  the source (`load_page`, `set_page_pinned_state`, the cache-miss branch of
  `get_page`), each marked in its doc comment;
* a static lock-acquisition trace model for the two implemented operations.

Machine integers (`usize`, `u8`) are modelled as `Nat`; byte buffers as
`List Nat`; `u8` values stay below 256 under every operation modelled here.
-/

namespace ArcadiaDB

/-- `TableId(pub String)` — src/src/shared/definitions.rs line 2. -/
abbrev TableId := String

/-- `PageId(pub usize)` — src/src/shared/definitions.rs line 5. -/
abbrev PageId := Nat

/-- `BufferPoolKey = (TableId, PageId)` —
src/src/storage/buffer_pool_manager/buffer_pool.rs line 49. -/
abbrev BufferPoolKey := TableId × PageId

/-- Association-list lookup; models `DashMap::get` / `HashMap::get`
(first binding for the key wins). -/
def assocLookup {α β : Type} [DecidableEq α] : List (α × β) → α → Option β
  | [], _ => none
  | (k, v) :: rest, key => if key = k then some v else assocLookup rest key

/-- Remove every binding for `key`. -/
def assocErase {α β : Type} [DecidableEq α] : List (α × β) → α → List (α × β)
  | [], _ => []
  | (k, v) :: rest, key =>
    if key = k then assocErase rest key else (k, v) :: assocErase rest key

/-- Association-list insert; models `DashMap::insert` / `HashMap::insert`
(replaces any existing binding for the key). -/
def assocInsert {α β : Type} [DecidableEq α] (key : α) (v : β) (l : List (α × β)) :
    List (α × β) :=
  (key, v) :: assocErase l key

/-- `PageTableItemMetadataFlagsMasks::IsDirty = 0b00000001` —
src/src/storage/buffer_pool_manager/buffer_pool.rs lines 61-66. -/
def IsDirtyMask : Nat := 1

/-- `PageTableItemMetadataFlags::get_is_dirty` (macro expansion, buffer_pool.rs
lines 73-95): `(self.0 & mask) != 0`. The flags byte is a `u8`, modelled as
`Nat`. -/
def get_is_dirty (flags : Nat) : Bool := flags &&& IsDirtyMask != 0

/-- `PageTableItemMetadataFlags::set_is_dirty` (macro expansion, buffer_pool.rs
lines 79-86): `self.0 = if value { self.0 | mask } else { self.0 | !mask }`.
On `u8`, `!mask` is `255 ^^^ mask`. Note the source really computes bitwise OR
with the complemented mask in the `false` branch. -/
def set_is_dirty (flags : Nat) (value : Bool) : Nat :=
  if value then flags ||| IsDirtyMask else flags ||| (255 ^^^ IsDirtyMask)

/-- `PageTableItemMetadata` — buffer_pool.rs lines 97-103. `Default` derives
to all fields zero / clean. -/
structure PageTableItemMetadata where
  access_count : Nat
  pin_count : Nat
  flags : Nat
deriving DecidableEq

/-- `PageTableItemMetadata::default()`. -/
def defaultMetadata : PageTableItemMetadata := ⟨0, 0, 0⟩

/-- `PageTableItem` — buffer_pool.rs lines 105-115. The `frame_lock: RwLock<()>`
of the `Occupied` variant carries no data and is represented by the lock-trace
model below. -/
inductive PageTableItem where
  | free (next_free_index : Option Nat)
  | occupied (metadata : PageTableItemMetadata)
deriving DecidableEq

/-- State of one `BufferPoolImpl` — buffer_pool.rs lines 181-200:
`buffer_map: DashMap<BufferPoolKey, usize>` maps a key to its frame index,
`page_table: Vec<RwLock<PageTableItem>>` is indexed by frame index,
`frame_buffer` is `entries_count * page_size` bytes. -/
structure PoolState where
  entries_count : Nat
  page_size : Nat
  buffer_map : List (BufferPoolKey × Nat)
  page_table : List PageTableItem
  frame_buffer : List Nat
deriving DecidableEq

/-- Outcomes of pool operations. The first three are the caller-visible
recoverable errors named by the spec; the rest model Rust panics at the
corresponding program points. -/
inductive PoolErr where
  | notResident
  | poolExhausted
  | underflow
  | assertFail
  | unwrapNone
  | notOccupied
  | sliceLenMismatch
  | indexOutOfBounds
deriving DecidableEq

/-- Whether an outcome is a panic (process abort) as opposed to a
recoverable, caller-visible error. -/
def PoolErr.isPanic : PoolErr → Bool
  | .notResident => false
  | .poolExhausted => false
  | .underflow => false
  | _ => true

/-- Result of a pool operation: success with the post state and a value, or
an error/panic together with the pool state observable at that moment (the
pool is shared, so state at a panic remains visible). -/
inductive MRes (α : Type) where
  | ok (s : PoolState) (v : α)
  | err (e : PoolErr) (s : PoolState)
deriving DecidableEq

/-- The state carried by a result. -/
def MRes.state {α : Type} : MRes α → PoolState
  | .ok s _ => s
  | .err _ s => s

/-- Whether a result is a success. -/
def MRes.isOk {α : Type} : MRes α → Bool
  | .ok _ _ => true
  | .err _ _ => false

/-- The value carried by a successful result. -/
def MRes.valOf {α : Type} : MRes α → Option α
  | .ok _ v => some v
  | .err _ _ => none

/-- `FrameBuffer::get_frame_range(index, offset)` — buffer_pool.rs lines
172-175: `(page_size * index + offset)..(page_size * (index + 1))`. Start of
the range. -/
def frameStart (s : PoolState) (i offset : Nat) : Nat := s.page_size * i + offset

/-- End of `FrameBuffer::get_frame_range(index, _)`. -/
def frameStop (s : PoolState) (i : Nat) : Nat := s.page_size * (i + 1)

/-- Rust `slice::get(start..stop)`: `Some` of the subslice iff
`start <= stop <= len`, `None` otherwise. -/
def listSlice (l : List Nat) (start stop : Nat) : Option (List Nat) :=
  if start ≤ stop ∧ stop ≤ l.length then some ((l.drop start).take (stop - start))
  else none

/-- Overwrite `l` starting at `start` with `d`
(the effect of `copy_from_slice` on the whole buffer). -/
def writeAt (l : List Nat) (start : Nat) (d : List Nat) : List Nat :=
  l.take start ++ d ++ l.drop (start + d.length)

/-- Replace the metadata of the occupied page-table entry at `bid`. -/
def setMeta (s : PoolState) (bid : Nat) (md : PageTableItemMetadata) : PoolState :=
  { s with page_table := s.page_table.set bid (.occupied md) }

/-- Modelled from the spec: the cache-miss branch of `BufferPoolImpl::get_page`
is `todo` in the source (buffer_pool.rs lines 235-238, comment `Not in the
buffer pool.`). Spec section 4.3: `get_page(key)` fails (NotResident) if the
key is not cached. -/
def get_page_missing (s : PoolState) : MRes (List Nat) := .err .notResident s

/-- `BufferPoolImpl::get_page` — buffer_pool.rs lines 204-239 (hit path):
resolve the frame index through `buffer_map`, take the page-table entry read
lock, require the entry `Occupied` (else `Not occupied!` panic), take the
frame read lock, slice the frame bytes (`.get(range).unwrap()`), increment
`access_count` under the metadata mutex, and return the bytes. The miss
branch is spec-modelled (`get_page_missing`). -/
def get_page (s : PoolState) (id : BufferPoolKey) : MRes (List Nat) :=
  match assocLookup s.buffer_map id with
  | some bid =>
    match s.page_table[bid]? with
    | some (PageTableItem.occupied md) =>
      match listSlice s.frame_buffer (frameStart s bid 0) (frameStop s bid) with
      | some data =>
        .ok (setMeta s bid { md with access_count := md.access_count + 1 }) data
      | none => .err .unwrapNone s
    | some (PageTableItem.free _) => .err .notOccupied s
    | none => .err .unwrapNone s
  | none => get_page_missing s

/-- `BufferPoolImpl::mutate_page` — buffer_pool.rs lines 241-268:
`assert!(offset % page_size == 0)` (line 242; with `page_size == 0` the Rust
remainder itself panics, folded into the same assert outcome),
`assert!(offset + data.len() <= page_size)` (line 243), then
`buffer_map.get(&id).unwrap()`, `page_table.get(bid).unwrap()`, entry must be
`Occupied` (else `Not occupied!` panic), `buffer.get_mut(range).unwrap()`,
`copy_from_slice(&data)` (panics unless `data.len()` equals the range length),
then under the metadata mutex `access_count += 1` and `set_is_dirty(true)`. -/
def mutate_page (s : PoolState) (id : BufferPoolKey) (offset : Nat)
    (data : List Nat) : MRes Unit :=
  if s.page_size = 0 then .err .assertFail s
  else if offset % s.page_size ≠ 0 then .err .assertFail s
  else if ¬ (offset + data.length ≤ s.page_size) then .err .assertFail s
  else
    match assocLookup s.buffer_map id with
    | none => .err .unwrapNone s
    | some bid =>
      match s.page_table[bid]? with
      | none => .err .unwrapNone s
      | some (PageTableItem.free _) => .err .notOccupied s
      | some (PageTableItem.occupied md) =>
        if frameStart s bid offset ≤ frameStop s bid ∧
            frameStop s bid ≤ s.frame_buffer.length then
          if data.length = frameStop s bid - frameStart s bid offset then
            .ok { s with
                  frame_buffer := writeAt s.frame_buffer (frameStart s bid offset) data,
                  page_table := s.page_table.set bid (.occupied
                    { md with
                      access_count := md.access_count + 1,
                      flags := set_is_dirty md.flags true }) } ()
          else .err .sliceLenMismatch s
        else .err .unwrapNone s

/-- Whether frame `i` is unoccupied: no occupied page-table entry at `i`
(used by the spec-modelled allocator glue below). -/
def frameFree (s : PoolState) (i : Nat) : Bool :=
  match s.page_table[i]? with
  | some (PageTableItem.occupied _) => false
  | _ => true

/-- Loop body of `FrameBuffer::find_first_free_index` —
src/src/src/buffer_pool_manager/frame_buffer.rs lines 29-37:
`for i in 0..N { if !self.occupied[i] { return Some(i); } } None`. -/
def find_first_free_aux : Nat → List Bool → Option Nat
  | _, [] => none
  | i, occ :: rest => if !occ then some i else find_first_free_aux (i + 1) rest

/-- `FrameBuffer::find_first_free_index` over the occupancy flags (the source
fixes the flag vector length to `FRAME_BUFFER_PAGES_SIZE = 16`; the pool model
passes `entries_count` flags). -/
def find_first_free_index (occupied : List Bool) : Option Nat :=
  find_first_free_aux 0 occupied

/-- Modelled from the spec: occupancy flags of the pool's frames, the input
`find_first_free_index` scans (spec section 4.2, `find_free_frame`). -/
def occupancy (s : PoolState) : List Bool :=
  (List.range s.entries_count).map (fun i => !frameFree s i)

/-- Modelled from the spec: `find_free_frame() -> Option<frame_index>`
(spec section 4.2), realised with the source's first-free scan. -/
def find_free_frame (s : PoolState) : Option Nat :=
  find_first_free_index (occupancy s)

/-- Modelled from the spec: the eviction candidates — resident (occupied)
entries with `pin_count == 0` (spec section 4.3, eviction policy), listed in
ascending frame-index order, each paired with its `access_count`. -/
def candidates (s : PoolState) : List (Nat × Nat) :=
  (List.range s.entries_count).filterMap fun i =>
    match s.page_table[i]? with
    | some (PageTableItem.occupied md) => if md.pin_count = 0 then some (i, md.access_count) else none
    | _ => none

/-- Scan keeping the entry with the strictly smaller `access_count`
(ties keep the earlier, i.e. lower, frame index). -/
def pickMin : Option (Nat × Nat) → List (Nat × Nat) → Option (Nat × Nat)
  | acc, [] => acc
  | none, x :: xs => pickMin (some x) xs
  | some b, x :: xs => pickMin (some (if x.2 < b.2 then x else b)) xs

/-- Modelled from the spec: the eviction victim — the candidate with the
lowest `access_count`, ties broken by lowest frame index (spec section 4.3). -/
def select_victim (s : PoolState) : Option Nat :=
  (pickMin none (candidates s)).map Prod.fst

/-- Whether frame `i` is an eviction candidate: in range, occupied and
unpinned. -/
def isCandidate (s : PoolState) (i : Nat) : Bool :=
  decide (i < s.entries_count) &&
    match s.page_table[i]? with
    | some (PageTableItem.occupied md) => md.pin_count == 0
    | _ => false

/-- `access_count` of the entry at frame `i` (0 when not occupied). -/
def accessOf (s : PoolState) (i : Nat) : Nat :=
  match s.page_table[i]? with
  | some (PageTableItem.occupied md) => md.access_count
  | _ => 0

/-- Modelled from the spec: reclaim frame `vid` for reuse — drop its key's
`buffer_map` binding and free its page-table entry (spec sections 4.2/4.3;
a dirty victim is first written back through the external Storage Handler,
which is outside this model's state). -/
def evictFrame (s : PoolState) (vid : Nat) : PoolState :=
  { s with
    buffer_map := s.buffer_map.filter (fun p => p.2 != vid),
    page_table := s.page_table.set vid (.free none) }

/-- Modelled from the spec: install page `id` into frame `fid` — copy the
bytes in, insert a fresh page-table entry (pin 0, access 0, clean), bind the
key (spec section 4.3, `load_page` absent path). A frame index the pool's
vectors cannot hold is a programming-error panic. -/
def installAt (s : PoolState) (id : BufferPoolKey) (fid : Nat)
    (bytes : List Nat) : MRes Unit :=
  if fid < s.page_table.length ∧ frameStop s fid ≤ s.frame_buffer.length then
    .ok { s with
          buffer_map := assocInsert id fid s.buffer_map,
          page_table := s.page_table.set fid (.occupied defaultMetadata),
          frame_buffer := writeAt s.frame_buffer (frameStart s fid 0) bytes } ()
  else .err .indexOutOfBounds s

/-- Modelled from the spec: `BufferPool::load_page` is `todo` in the source
(src/src/src/buffer_pool_manager/buffer_pool.rs lines 391-393). Spec section
4.3: requires `bytes.len() == page_size`; if the key is already resident,
overwrite the frame in place (refresh; the entry's dirty bit is cleared —
`flags AND !mask`, the proper clear the spec describes); if absent, resolve a
frame via the allocator, else evict the selected victim; if no entry has
`pin_count == 0`, fail with PoolExhausted. -/
def load_page (s : PoolState) (id : BufferPoolKey) (bytes : List Nat) : MRes Unit :=
  if bytes.length ≠ s.page_size then .err .assertFail s
  else
    match assocLookup s.buffer_map id with
    | some bid =>
      match s.page_table[bid]? with
      | some (PageTableItem.occupied md) =>
        if frameStop s bid ≤ s.frame_buffer.length then
          .ok { s with
                page_table := s.page_table.set bid (.occupied
                  { md with flags := md.flags &&& (255 ^^^ IsDirtyMask) }),
                frame_buffer := writeAt s.frame_buffer (frameStart s bid 0) bytes } ()
        else .err .indexOutOfBounds s
      | _ => .err .notOccupied s
    | none =>
      match find_free_frame s with
      | some fid => installAt s id fid bytes
      | none =>
        match select_victim s with
        | some vid => installAt (evictFrame s vid) id vid bytes
        | none => .err .poolExhausted s

/-- Modelled from the spec: `BufferPool::set_page_pinned_state` is `todo` in
the source (src/src/src/buffer_pool_manager/buffer_pool.rs lines 378-389).
Spec section 4.3: `set_pinned(key, pinned)` increments/decrements `pin_count`;
decrementing below 0 fails with Underflow, never silently saturates. The key
must be resident (the source draft unwraps the lookup). -/
def set_pinned (s : PoolState) (id : BufferPoolKey) (pinned : Bool) : MRes Unit :=
  match assocLookup s.buffer_map id with
  | none => .err .unwrapNone s
  | some bid =>
    match s.page_table[bid]? with
    | some (PageTableItem.occupied md) =>
      if pinned then .ok (setMeta s bid { md with pin_count := md.pin_count + 1 }) ()
      else if md.pin_count = 0 then .err .underflow s
      else .ok (setMeta s bid { md with pin_count := md.pin_count - 1 }) ()
    | _ => .err .notOccupied s

/-- `n` successive `set_pinned` calls with the same flag, stopping at the
first failure. -/
def iterPin (id : BufferPoolKey) (pinned : Bool) : Nat → PoolState → MRes Unit
  | 0, s => .ok s ()
  | n + 1, s =>
    match set_pinned s id pinned with
    | .ok s' _ => iterPin id pinned n s'
    | e => e

/-- The `pin_count` of the entry a key resolves to. -/
def pinCountOf (s : PoolState) (id : BufferPoolKey) : Option Nat :=
  match assocLookup s.buffer_map id with
  | some bid =>
    match s.page_table[bid]? with
    | some (PageTableItem.occupied md) => some md.pin_count
    | _ => none
  | none => none

/-- `BufferPoolManagerConfig` — referenced from
src/src/src/buffer_pool_manager/mod.rs (fields as used at lines 34-44 and in
the tests). -/
structure BufferPoolManagerConfig where
  default_page_size : Nat
  default_entries_count : Nat
deriving DecidableEq

/-- A `BufferPoolImpl` as constructed by `BufferPoolImpl::new(page_size,
entries_count)` (src/src/src/buffer_pool_manager/buffer_pool.rs lines
269-275), recorded by its construction parameters. -/
structure BPool where
  page_size : Nat
  entries_count : Nat
deriving DecidableEq

/-- `BufferPoolManagerImpl` — src/src/src/buffer_pool_manager/mod.rs lines
7-20: a config plus a `RwLock<HashMap<TableId, Arc<BufferPoolImpl>>>`. -/
structure ManagerState where
  config : BufferPoolManagerConfig
  pools : List (TableId × BPool)
deriving DecidableEq

/-- Result of a manager operation (panics modelled like `MRes`). -/
inductive MgrRes where
  | ok (m : ManagerState)
  | err (e : PoolErr)
deriving DecidableEq

/-- `BufferPoolManagerImpl::create_buffer_pool` — mod.rs lines 28-51:
resolve `page_size`/`entries_count` against the config defaults, then
`pools.insert(table_id, Arc::new(BufferPoolImpl::new(..)))` — an unconditional
insert that replaces any existing pool for the table. `BufferPoolImpl::new`
asserts both sizes positive (via `FrameBuffer::new`). -/
def create_buffer_pool (m : ManagerState) (tid : TableId)
    (pso eco : Option Nat) : MgrRes :=
  let ps := pso.getD m.config.default_page_size
  let ec := eco.getD m.config.default_entries_count
  if ps = 0 ∨ ec = 0 then .err .assertFail
  else .ok { m with pools := assocInsert tid ⟨ps, ec⟩ m.pools }

/-- `BufferPoolManagerImpl::contains_buffer_pool` — mod.rs lines 23-26. -/
def contains_buffer_pool (m : ManagerState) (tid : TableId) : Bool :=
  (assocLookup m.pools tid).isSome

/-- `BufferPoolManagerImpl::get_buffer_pool` — mod.rs lines 53-57
(`pools.get(&table_id).unwrap()`; `none` is the unwrap panic). -/
def get_buffer_pool (m : ManagerState) (tid : TableId) : Option BPool :=
  assocLookup m.pools tid

/-- `PageData` — src/src/src/shared/definitions.rs lines 10-14. `safeData`
is the `Safe(&[u8])` variant; `rawData` is the `Unsafe(*const u8)` variant,
with the pointed-to byte array made explicit. -/
inductive PageData where
  | safeData (d : List Nat)
  | rawData (d : List Nat)
deriving DecidableEq

/-- `Page` — src/src/src/shared/definitions.rs lines 16-21. -/
structure Page where
  id : PageId
  size : Nat
  data : PageData
deriving DecidableEq

/-- `isize::MAX` (64-bit), the bound of `usize::try_into::<isize>()`. -/
def isizeMaxNat : Nat := 2 ^ 63 - 1

/-- Result of `Page::index`: the returned `Option<u8>`, or a panic. -/
inductive PageIndexResult where
  | ok (v : Option Nat)
  | panicked
deriving DecidableEq

/-- `Page::index` — src/src/src/shared/definitions.rs lines 48-59.
`Safe` variant: `Some(safe[index])` — the slice index panics when
`index >= data.len()`. `Unsafe` variant: `None` when `index >= size`, else
reads through the pointer at `index` (`index.try_into().ok()?` returns `None`
when the offset does not fit an `isize`). -/
def Page.index (p : Page) (i : Nat) : PageIndexResult :=
  match p.data with
  | .safeData d => if i < d.length then .ok (some (d.getD i 0)) else .panicked
  | .rawData d =>
    if p.size ≤ i then .ok none
    else if i ≤ isizeMaxNat then .ok (some (d.getD i 0)) else .ok none

/-- The locks the storage buffer pool touches:
`mapEntry` — the `DashMap` per-key entry guard (claim's lock 1);
`pageEntry` — the `RwLock<PageTableItem>` of the entry;
`metadata` — the `Mutex<PageTableItemMetadata>` (claim's lock 2);
`frame` — the entry's `frame_lock: RwLock<()>` (claim's lock 3). -/
inductive LockClass where
  | mapEntry
  | pageEntry
  | metadata
  | frame
deriving DecidableEq

/-- An acquisition or release of one lock. -/
inductive LockEvent where
  | acquire (c : LockClass)
  | release (c : LockClass)
deriving DecidableEq

/-- Lock trace of `BufferPoolImpl::get_page` (hit path), buffer_pool.rs:
`buffer_map.get` line 205 (`Ref` guard held to the end of the function);
entry read lock line 211; frame read lock line 221; metadata mutex lines
230-232 (scoped block); map guard released when the function returns; the
returned `PageReadLock` releases frame then entry on drop (lines 38-47). -/
def get_page_lock_trace : List LockEvent :=
  [.acquire .mapEntry, .acquire .pageEntry, .acquire .frame,
   .acquire .metadata, .release .metadata,
   .release .mapEntry, .release .frame, .release .pageEntry]

/-- Lock trace of `BufferPoolImpl::mutate_page`, buffer_pool.rs:
`buffer_map.get` line 245; entry read lock line 251; frame write lock line
254; metadata mutex lines 263-267 (scoped block); the remaining guards drop
at function end in reverse declaration order (frame, entry, map). -/
def mutate_page_lock_trace : List LockEvent :=
  [.acquire .mapEntry, .acquire .pageEntry, .acquire .frame,
   .acquire .metadata, .release .metadata,
   .release .frame, .release .pageEntry, .release .mapEntry]

/-- For each acquire event of a trace, the locks already held at that
moment (most recently acquired first). -/
def scanHeld : List LockClass → List LockEvent → List (LockClass × List LockClass)
  | _, [] => []
  | held, .acquire c :: rest => (c, held) :: scanHeld (c :: held) rest
  | held, .release c :: rest => scanHeld (held.erase c) rest

/-- Whether the trace ever acquires lock `c` while already holding lock `d`. -/
def acquiresWhileHolding (t : List LockEvent) (c d : LockClass) : Bool :=
  (scanHeld [] t).any (fun p => p.1 == c && p.2.contains d)

/-- The sequence of lock acquisitions of a trace. -/
def acquireSeq (t : List LockEvent) : List LockClass :=
  t.filterMap fun e =>
    match e with
    | .acquire c => some c
    | .release _ => none

/-- The sequence of lock releases of a trace. -/
def releaseSeq (t : List LockEvent) : List LockClass :=
  t.filterMap fun e =>
    match e with
    | .acquire _ => none
    | .release c => some c

/-- Whether a trace releases locks in exact reverse order of acquisition
(LIFO) and ends with nothing held. -/
def wellNested : List LockClass → List LockEvent → Bool
  | stack, [] => stack.isEmpty
  | stack, .acquire c :: rest => wellNested (c :: stack) rest
  | stack, .release c :: rest =>
    match stack with
    | [] => false
    | top :: stack' => top == c && wellNested stack' rest

/-! Helper lemmas. -/

theorem assocLookup_insert_self {α β : Type} [DecidableEq α] (key : α) (v : β)
    (l : List (α × β)) : assocLookup (assocInsert key v l) key = some v := by
  simp [assocInsert, assocLookup]

theorem writeAt_length (l d : List Nat) (start : Nat)
    (h : start + d.length ≤ l.length) : (writeAt l start d).length = l.length := by
  simp only [writeAt, List.length_append, List.length_take, List.length_drop]
  omega

theorem writeAt_slice (l d : List Nat) (start : Nat)
    (h : start + d.length ≤ l.length) :
    listSlice (writeAt l start d) start (start + d.length) = some d := by
  have hlen : (writeAt l start d).length = l.length := writeAt_length l d start h
  unfold listSlice
  rw [if_pos ⟨by omega, by omega⟩]
  congr 1
  unfold writeAt
  have ht : (l.take start).length = start := by
    simp [List.length_take]
    omega
  rw [List.append_assoc, List.drop_left' ht, Nat.add_sub_cancel_left,
    List.take_left' rfl]

theorem get?_some_lt {α : Type} {l : List α} {i : Nat} {a : α}
    (h : l[i]? = some a) : i < l.length := by
  rcases List.getElem?_eq_some_iff.mp h with ⟨h', _⟩
  exact h'

theorem get?_set_self {α : Type} (l : List α) (i : Nat) (a : α)
    (h : i < l.length) : (l.set i a)[i]? = some a := by
  rw [List.getElem?_set_self', List.getElem?_eq_getElem h]
  rfl

theorem get_set_dirty_true (f : Nat) : get_is_dirty (set_is_dirty f true) = true := by
  simp only [get_is_dirty, set_is_dirty, IsDirtyMask, if_pos]
  simp [Nat.testBit, Nat.shiftRight_zero, Nat.and_comm]

/-! Claim theorems. -/

/-- C2 counterexample: the claim says `mutate_page` succeeds for a resident
key even when `offset % page_size != 0`. In the source the very first
statement of `mutate_page` is `assert!(offset % page_size == 0)`
(buffer_pool.rs line 242): with `page_size = 8`, a resident key, `offset = 1`
and one byte of data (`1 + 1 <= 8`, so the claim's own bound holds), the call
fails on that assert instead of succeeding. -/
theorem c2_misaligned_offset_cex :
    mutate_page ⟨1, 8, [(("t", 0), 0)], [.occupied ⟨0, 0, 0⟩], [0, 0, 0, 0, 0, 0, 0, 0]⟩
        ("t", 0) 1 [7]
      = .err .assertFail
          ⟨1, 8, [(("t", 0), 0)], [.occupied ⟨0, 0, 0⟩], [0, 0, 0, 0, 0, 0, 0, 0]⟩ ∧
    (assocLookup ([((("t", 0) : BufferPoolKey), 0)]) ("t", 0)).isSome = true ∧
    1 + 1 ≤ 8 := by
  refine ⟨by decide, by decide, by decide⟩

/-- C2 (amended): alignment IS a precondition of `mutate_page`: for every
state, key, offset and data, if `offset % page_size ≠ 0` — even with the key
resident and `offset + data.len() ≤ page_size` — the call fails on the
alignment assert and the state is unchanged. -/
theorem c2_alignment_required (s : PoolState) (id : BufferPoolKey)
    (offset : Nat) (data : List Nat)
    (hres : (assocLookup s.buffer_map id).isSome = true)
    (hoff : offset % s.page_size ≠ 0)
    (hlen : offset + data.length ≤ s.page_size) :
    mutate_page s id offset data = .err .assertFail s := by
  unfold mutate_page
  by_cases h0 : s.page_size = 0
  · rw [if_pos h0]
  · rw [if_neg h0, if_pos hoff]

/-- C2 witness: the amended theorem applied at `page_size = 8`, resident key
`("t", 0)`, `offset = 1`, one data byte. -/
theorem c2_alignment_required_witness :
    mutate_page ⟨1, 8, [(("t", 0), 0)], [.occupied ⟨0, 0, 0⟩], [0, 0, 0, 0, 0, 0, 0, 0]⟩
        ("t", 0) 1 [9]
      = .err .assertFail
          ⟨1, 8, [(("t", 0), 0)], [.occupied ⟨0, 0, 0⟩], [0, 0, 0, 0, 0, 0, 0, 0]⟩ :=
  c2_alignment_required _ ("t", 0) 1 [9] (by decide) (by decide) (by decide)

/-- C4: every successful `mutate_page(key, offset, data)` leaves the frame's
bytes at `[offset, offset + data.len())` equal to `data` (so a later
`get_page` sees `data` at `offset`), sets the entry's dirty flag, and
increments its `access_count` by exactly one. -/
theorem c4_mutate_effects (s : PoolState) (id : BufferPoolKey) (offset : Nat)
    (data : List Nat) (s' : PoolState)
    (h : mutate_page s id offset data = .ok s' ()) :
    ∃ bid md, assocLookup s.buffer_map id = some bid ∧
      s.page_table[bid]? = some (.occupied md) ∧
      listSlice s'.frame_buffer (frameStart s bid offset)
          (frameStart s bid offset + data.length) = some data ∧
      s'.page_table[bid]? = some (.occupied
        { md with access_count := md.access_count + 1,
                  flags := set_is_dirty md.flags true }) ∧
      get_is_dirty (set_is_dirty md.flags true) = true := by
  unfold mutate_page at h
  split at h
  · exact absurd h (by simp)
  split at h
  · exact absurd h (by simp)
  split at h
  · exact absurd h (by simp)
  split at h
  · exact absurd h (by simp)
  next bid hmap =>
  split at h
  · exact absurd h (by simp)
  · exact absurd h (by simp)
  next md hpt =>
  split at h
  · next hrange =>
    split at h
    · next hdlen =>
      injection h with h'
      subst h'
      refine ⟨bid, md, hmap, hpt, ?_, ?_, get_set_dirty_true md.flags⟩
      · have hb : frameStart s bid offset + data.length ≤ s.frame_buffer.length := by
          simp only [frameStart, frameStop] at hrange hdlen ⊢
          omega
        exact writeAt_slice s.frame_buffer data (frameStart s bid offset) hb
      · exact get?_set_self s.page_table bid _ (get?_some_lt hpt)
    · exact absurd h (by simp)
  · exact absurd h (by simp)

/-- C4 witness: a concrete successful mutate on a one-frame pool with
`page_size = 2`. -/
theorem c4_mutate_effects_witness :
    ∃ bid md,
      assocLookup ((⟨1, 2, [(("t", 0), 0)], [.occupied ⟨0, 0, 0⟩], [0, 0]⟩ :
        PoolState)).buffer_map ("t", 0) = some bid ∧
      ((⟨1, 2, [(("t", 0), 0)], [.occupied ⟨0, 0, 0⟩], [0, 0]⟩ :
        PoolState)).page_table[bid]? = some (.occupied md) ∧
      listSlice ((⟨1, 2, [(("t", 0), 0)], [.occupied ⟨1, 0, 1⟩], [9, 9]⟩ :
          PoolState)).frame_buffer
          (frameStart ⟨1, 2, [(("t", 0), 0)], [.occupied ⟨0, 0, 0⟩], [0, 0]⟩ bid 0)
          (frameStart ⟨1, 2, [(("t", 0), 0)], [.occupied ⟨0, 0, 0⟩], [0, 0]⟩ bid 0
            + [9, 9].length) = some [9, 9] ∧
      ((⟨1, 2, [(("t", 0), 0)], [.occupied ⟨1, 0, 1⟩], [9, 9]⟩ :
        PoolState)).page_table[bid]? = some (.occupied
          { md with access_count := md.access_count + 1,
                    flags := set_is_dirty md.flags true }) ∧
      get_is_dirty (set_is_dirty md.flags true) = true :=
  c4_mutate_effects ⟨1, 2, [(("t", 0), 0)], [.occupied ⟨0, 0, 0⟩], [0, 0]⟩
    ("t", 0) 0 [9, 9] ⟨1, 2, [(("t", 0), 0)], [.occupied ⟨1, 0, 1⟩], [9, 9]⟩
    (by decide)

/-- C5: `mutate_page` with `offset + data.len() > page_size` on a resident
key fails (the source's bounds assert, buffer_pool.rs line 243 — or, when the
offset is also misaligned, the alignment assert just before it) and leaves
the whole pool state, hence the frame bytes, dirty flag and access count,
unchanged. -/
theorem c5_mutate_out_of_range (s : PoolState) (id : BufferPoolKey)
    (offset : Nat) (data : List Nat)
    (hres : (assocLookup s.buffer_map id).isSome = true)
    (h : s.page_size < offset + data.length) :
    (mutate_page s id offset data).isOk = false ∧
      (mutate_page s id offset data).state = s := by
  unfold mutate_page
  by_cases h0 : s.page_size = 0
  · rw [if_pos h0]
    exact ⟨rfl, rfl⟩
  · rw [if_neg h0]
    by_cases h1 : offset % s.page_size ≠ 0
    · rw [if_pos h1]
      exact ⟨rfl, rfl⟩
    · rw [if_neg h1, if_pos (by omega)]
      exact ⟨rfl, rfl⟩

/-- C5 witness: `page_size = 2`, resident key, `offset = 1` with two data
bytes (`1 + 2 > 2`). -/
theorem c5_mutate_out_of_range_witness :
    (mutate_page ⟨1, 2, [(("t", 0), 0)], [.occupied ⟨0, 0, 0⟩], [0, 0]⟩
        ("t", 0) 1 [7, 7]).isOk = false ∧
    (mutate_page ⟨1, 2, [(("t", 0), 0)], [.occupied ⟨0, 0, 0⟩], [0, 0]⟩
        ("t", 0) 1 [7, 7]).state
      = ⟨1, 2, [(("t", 0), 0)], [.occupied ⟨0, 0, 0⟩], [0, 0]⟩ :=
  c5_mutate_out_of_range ⟨1, 2, [(("t", 0), 0)], [.occupied ⟨0, 0, 0⟩], [0, 0]⟩
    ("t", 0) 1 [7, 7] (by decide) (by decide)

/-- C7 counterexample: the claim says `create_pool` on a table that already
has a pool fails with CreateConflict and leaves the existing pool in place.
In the source (`mod.rs` lines 28-51) `create_buffer_pool` is an unconditional
`pools.insert`: starting from a manager that already maps `"Person"` to a
pool with `page_size = 16`, `entries_count = 8`, the call succeeds and the
existing pool is replaced by the new `(4, 2)` pool. -/
theorem c7_create_conflict_cex :
    create_buffer_pool ⟨⟨16, 8⟩, [("Person", ⟨16, 8⟩)]⟩ "Person" (some 4) (some 2)
      = .ok ⟨⟨16, 8⟩, [("Person", ⟨4, 2⟩)]⟩ ∧
    get_buffer_pool ⟨⟨16, 8⟩, [("Person", ⟨4, 2⟩)]⟩ "Person" ≠ some ⟨16, 8⟩ := by
  refine ⟨by decide, by decide⟩

/-- C7 (amended): `create_pool(table_id, ..)` never reports a conflict: for
every manager state — also one already containing a pool for `table_id` —
and positive resolved sizes, it succeeds and (re)binds `table_id` to a fresh
pool with the resolved `page_size`/`entries_count`, replacing any existing
pool (the source's contract makes prior absence a caller obligation instead
of checking it). -/
theorem c7_create_overwrites (m : ManagerState) (tid : TableId)
    (pso eco : Option Nat)
    (hps : 0 < pso.getD m.config.default_page_size)
    (hec : 0 < eco.getD m.config.default_entries_count) :
    create_buffer_pool m tid pso eco
      = .ok ⟨m.config, assocInsert tid
          (⟨pso.getD m.config.default_page_size,
            eco.getD m.config.default_entries_count⟩ : BPool) m.pools⟩ ∧
    get_buffer_pool ⟨m.config, assocInsert tid
          (⟨pso.getD m.config.default_page_size,
            eco.getD m.config.default_entries_count⟩ : BPool) m.pools⟩ tid
      = some ⟨pso.getD m.config.default_page_size,
              eco.getD m.config.default_entries_count⟩ := by
  constructor
  · unfold create_buffer_pool
    rw [if_neg (by omega)]
  · exact assocLookup_insert_self tid _ m.pools

/-- C7 witness: the amended theorem at the conflicting `"Person"` manager. -/
theorem c7_create_overwrites_witness :
    create_buffer_pool ⟨⟨16, 8⟩, [("Person", ⟨16, 8⟩)]⟩ "Person" (some 4) (some 2)
      = .ok ⟨⟨16, 8⟩,
          assocInsert "Person" (⟨4, 2⟩ : BPool) [("Person", ⟨16, 8⟩)]⟩ ∧
    get_buffer_pool ⟨⟨16, 8⟩,
          assocInsert "Person" (⟨4, 2⟩ : BPool) [("Person", ⟨16, 8⟩)]⟩
        "Person" = some ⟨4, 2⟩ :=
  c7_create_overwrites ⟨⟨16, 8⟩, [("Person", ⟨16, 8⟩)]⟩ "Person" (some 4) (some 2)
    (by decide) (by decide)

/-- C8: evaluation of the dirty-flag bug. The claim (and the macro's evident
intent) is that `set_is_dirty(b)` followed by `get_is_dirty` returns `b` for
every flags byte. The source's `false` branch computes `flags | !mask`
instead of `flags & !mask` (buffer_pool.rs line 83): on `flags = 0b00000001`
(dirty set), `set_is_dirty(false)` yields `0b11111111` — the dirty bit is
still set (and every other bit got corrupted), so `get_is_dirty` returns
`true`, not `false`. -/
theorem c8_set_is_dirty_false_eval :
    set_is_dirty 1 false = 255 ∧
    get_is_dirty (set_is_dirty 1 false) = true ∧
    get_is_dirty (set_is_dirty 1 true) = true := by
  refine ⟨by decide, by decide, by decide⟩

/-- C10 counterexample: the claim says `Page::index` returns `None` for
`index >= size` on both variants, never failing. For the `Safe` variant the
source returns `Some(safe[index])` unconditionally (definitions.rs line 50):
on a safe page of size 2 (data length 2) at index 2 the slice index panics
instead of returning `None`. -/
theorem c10_safe_index_cex :
    Page.index ⟨0, 2, .safeData [5, 6]⟩ 2 = .panicked ∧
    Page.index ⟨0, 2, .safeData [5, 6]⟩ 2 ≠ .ok none := by
  refine ⟨by decide, by decide⟩

/-- C10 (amended): for a page whose data length equals its `size`, both
variants return `Some` of the byte at `index` for `index < size` (the
`Unsafe` variant additionally requires the offset to fit an `isize`); for
`index >= size` only the `Unsafe` variant returns `None` — the `Safe`
variant panics on the slice index. -/
theorem c10_index_totality (pid sz i : Nat) (d : List Nat)
    (hlen : d.length = sz) :
    (i < sz →
      Page.index ⟨pid, sz, .safeData d⟩ i = .ok (some (d.getD i 0)) ∧
      (i ≤ isizeMaxNat →
        Page.index ⟨pid, sz, .rawData d⟩ i = .ok (some (d.getD i 0)))) ∧
    (sz ≤ i →
      Page.index ⟨pid, sz, .safeData d⟩ i = .panicked ∧
      Page.index ⟨pid, sz, .rawData d⟩ i = .ok none) := by
  constructor
  · intro hi
    constructor
    · dsimp only [Page.index]
      rw [if_pos (by omega)]
    · intro hiso
      dsimp only [Page.index]
      rw [if_neg (by omega), if_pos hiso]
  · intro hi
    constructor
    · dsimp only [Page.index]
      rw [if_neg (by omega)]
    · dsimp only [Page.index]
      rw [if_pos (by omega)]

/-- C10 witness: the amended theorem applied at a two-byte page, once at
index 1 (below the size) and once at index 2 (at the size bound). -/
theorem c10_index_totality_witness :
    ((1 < 2 →
      Page.index ⟨0, 2, .safeData [5, 6]⟩ 1 = .ok (some ([5, 6].getD 1 0)) ∧
      (1 ≤ isizeMaxNat →
        Page.index ⟨0, 2, .rawData [5, 6]⟩ 1 = .ok (some ([5, 6].getD 1 0)))) ∧
    (2 ≤ 1 →
      Page.index ⟨0, 2, .safeData [5, 6]⟩ 1 = .panicked ∧
      Page.index ⟨0, 2, .rawData [5, 6]⟩ 1 = .ok none)) ∧
    ((2 < 2 →
      Page.index ⟨0, 2, .safeData [5, 6]⟩ 2 = .ok (some ([5, 6].getD 2 0)) ∧
      (2 ≤ isizeMaxNat →
        Page.index ⟨0, 2, .rawData [5, 6]⟩ 2 = .ok (some ([5, 6].getD 2 0)))) ∧
    (2 ≤ 2 →
      Page.index ⟨0, 2, .safeData [5, 6]⟩ 2 = .panicked ∧
      Page.index ⟨0, 2, .rawData [5, 6]⟩ 2 = .ok none)) :=
  ⟨c10_index_totality 0 2 1 [5, 6] (by decide),
   c10_index_totality 0 2 2 [5, 6] (by decide)⟩

/-- C9 counterexample: the claim requires that no operation acquires the
map entry (1) or the page-table entry metadata lock (2) while already holding
the frame lock (3), and that locks are released in reverse acquisition
order. In the source, both `get_page` and `mutate_page` take the metadata
mutex (to bump `access_count` and set the dirty flag) only after taking the
frame lock (buffer_pool.rs lines 221/230 and 254/264); moreover `get_page`
releases the map entry on return while the returned guard still holds the
frame and entry locks, so its releases are not in reverse order. -/
theorem c9_lock_discipline_cex :
    acquiresWhileHolding mutate_page_lock_trace .metadata .frame = true ∧
    acquiresWhileHolding get_page_lock_trace .metadata .frame = true ∧
    wellNested [] get_page_lock_trace = false := by
  refine ⟨by decide, by decide, by decide⟩

/-- C9 (amended): `get_page` and `mutate_page` both acquire, in order, the
map's per-key entry, the page-table entry lock, the frame lock, and only
then the metadata lock — i.e. the metadata lock (2) is taken while the frame
lock (3) is held, and released first; `mutate_page` releases the remaining
locks in exact reverse (LIFO) order, while `get_page` releases the map entry
before the frame and entry locks, which the returned read guard releases
frame-first on drop. -/
theorem c9_lock_discipline_actual :
    acquireSeq get_page_lock_trace = [.mapEntry, .pageEntry, .frame, .metadata] ∧
    acquireSeq mutate_page_lock_trace = [.mapEntry, .pageEntry, .frame, .metadata] ∧
    scanHeld [] get_page_lock_trace =
      [(.mapEntry, []), (.pageEntry, [.mapEntry]),
       (.frame, [.pageEntry, .mapEntry]),
       (.metadata, [.frame, .pageEntry, .mapEntry])] ∧
    scanHeld [] mutate_page_lock_trace =
      [(.mapEntry, []), (.pageEntry, [.mapEntry]),
       (.frame, [.pageEntry, .mapEntry]),
       (.metadata, [.frame, .pageEntry, .mapEntry])] ∧
    releaseSeq mutate_page_lock_trace = [.metadata, .frame, .pageEntry, .mapEntry] ∧
    releaseSeq get_page_lock_trace = [.metadata, .mapEntry, .frame, .pageEntry] ∧
    wellNested [] mutate_page_lock_trace = true := by
  refine ⟨by decide, by decide, by decide, by decide, by decide, by decide, by decide⟩

/-- After a successful spec-modelled install of `bytes` into frame `fid`,
`get_page` on the installed key returns exactly `bytes`. -/
theorem installAt_ok_get (s : PoolState) (id : BufferPoolKey) (fid : Nat)
    (bytes : List Nat) (s' : PoolState)
    (hlen : bytes.length = s.page_size)
    (h : installAt s id fid bytes = .ok s' ()) :
    (get_page s' id).valOf = some bytes := by
  unfold installAt at h
  split at h
  · next hcond =>
    obtain ⟨hfid, hstop⟩ := hcond
    injection h with h'
    subst h'
    have hmap : assocLookup (assocInsert id fid s.buffer_map) id = some fid :=
      assocLookup_insert_self id fid s.buffer_map
    have hpt : (s.page_table.set fid (.occupied defaultMetadata))[fid]?
        = some (.occupied defaultMetadata) :=
      get?_set_self s.page_table fid (.occupied defaultMetadata) hfid
    have harith : s.page_size * fid + 0 + bytes.length = s.page_size * (fid + 1) := by
      rw [hlen]
      ring
    have hb : s.page_size * fid + 0 + bytes.length ≤ s.frame_buffer.length := by
      simp only [frameStop] at hstop
      omega
    have hsl : listSlice (writeAt s.frame_buffer (s.page_size * fid + 0) bytes)
        (s.page_size * fid + 0) (s.page_size * (fid + 1)) = some bytes := by
      rw [← harith]
      exact writeAt_slice s.frame_buffer bytes (s.page_size * fid + 0) hb
    simp only [get_page, frameStart, frameStop, hmap, hpt, hsl, MRes.valOf]
  · exact absurd h (by simp)

/-- C3: `get_page` on a key that was never loaded fails with NotResident
(the cache-miss branch, spec-modelled since it is `todo` in the source), and
after a completed `load_page(key, bytes)` with `bytes.len() == page_size`
(spec-modelled), `get_page(key)` succeeds and returns exactly `bytes`. -/
theorem c3_not_resident_and_load_round_trip
    (s s₀ : PoolState) (id id₀ : BufferPoolKey) (bytes : List Nat) (s' : PoolState)
    (h0 : assocLookup s₀.buffer_map id₀ = none)
    (h1 : bytes.length = s.page_size)
    (h2 : load_page s id bytes = .ok s' ()) :
    get_page s₀ id₀ = .err .notResident s₀ ∧ (get_page s' id).valOf = some bytes := by
  constructor
  · simp only [get_page, h0, get_page_missing]
  · unfold load_page at h2
    rw [if_neg (by omega)] at h2
    rcases hmap : assocLookup s.buffer_map id with _ | bid
    · rw [hmap] at h2
      simp only [] at h2
      rcases hff : find_free_frame s with _ | fid
      · rw [hff] at h2
        simp only [] at h2
        rcases hsv : select_victim s with _ | vid
        · rw [hsv] at h2
          exact absurd h2 (by simp)
        · rw [hsv] at h2
          simp only [] at h2
          exact installAt_ok_get (evictFrame s vid) id vid bytes s' h1 h2
      · rw [hff] at h2
        simp only [] at h2
        exact installAt_ok_get s id fid bytes s' h1 h2
    · rw [hmap] at h2
      simp only [] at h2
      rcases hpt : s.page_table[bid]? with _ | item
      · rw [hpt] at h2
        exact absurd h2 (by simp)
      · cases item with
        | free nf =>
          rw [hpt] at h2
          exact absurd h2 (by simp)
        | occupied md =>
          rw [hpt] at h2
          simp only [] at h2
          split at h2
          · next hstop =>
            injection h2 with h2'
            subst h2'
            have hpt' : (s.page_table.set bid (.occupied
                { md with flags := md.flags &&& (255 ^^^ IsDirtyMask) }))[bid]?
                = some (.occupied { md with flags := md.flags &&& (255 ^^^ IsDirtyMask) }) :=
              get?_set_self s.page_table bid _ (get?_some_lt hpt)
            have harith : s.page_size * bid + 0 + bytes.length = s.page_size * (bid + 1) := by
              rw [h1]
              ring
            have hb : s.page_size * bid + 0 + bytes.length ≤ s.frame_buffer.length := by
              simp only [frameStop] at hstop
              omega
            have hsl : listSlice (writeAt s.frame_buffer (s.page_size * bid + 0) bytes)
                (s.page_size * bid + 0) (s.page_size * (bid + 1)) = some bytes := by
              rw [← harith]
              exact writeAt_slice s.frame_buffer bytes (s.page_size * bid + 0) hb
            simp only [get_page, frameStart, frameStop, hmap, hpt', hsl, MRes.valOf]
          · exact absurd h2 (by simp)

/-- C3 witness: loading `[3, 4]` into an initially empty one-frame pool with
`page_size = 2`, then reading it back; the never-loaded key `("u", 7)` misses. -/
theorem c3_not_resident_and_load_round_trip_witness :
    get_page ⟨1, 2, [], [.free none], [0, 0]⟩ ("u", 7)
      = .err .notResident ⟨1, 2, [], [.free none], [0, 0]⟩ ∧
    (get_page ⟨1, 2, [(("t", 0), 0)], [.occupied ⟨0, 0, 0⟩], [3, 4]⟩ ("t", 0)).valOf
      = some [3, 4] :=
  c3_not_resident_and_load_round_trip
    ⟨1, 2, [], [.free none], [0, 0]⟩ ⟨1, 2, [], [.free none], [0, 0]⟩
    ("t", 0) ("u", 7) [3, 4]
    ⟨1, 2, [(("t", 0), 0)], [.occupied ⟨0, 0, 0⟩], [3, 4]⟩
    (by decide) (by decide) (by decide)

/-- Pinning a resident entry increments its `pin_count` by one. -/
theorem set_pinned_true_eq (s : PoolState) (id : BufferPoolKey) (bid : Nat)
    (md : PageTableItemMetadata)
    (hl : assocLookup s.buffer_map id = some bid)
    (ht : s.page_table[bid]? = some (.occupied md)) :
    set_pinned s id true
      = .ok (setMeta s bid { md with pin_count := md.pin_count + 1 }) () := by
  simp [set_pinned, hl, ht]

/-- Unpinning a resident entry with positive `pin_count` decrements it. -/
theorem set_pinned_false_pos_eq (s : PoolState) (id : BufferPoolKey) (bid : Nat)
    (md : PageTableItemMetadata)
    (hl : assocLookup s.buffer_map id = some bid)
    (ht : s.page_table[bid]? = some (.occupied md))
    (hpos : md.pin_count ≠ 0) :
    set_pinned s id false
      = .ok (setMeta s bid { md with pin_count := md.pin_count - 1 }) () := by
  simp [set_pinned, hl, ht, hpos]

/-- Unpinning a resident entry whose `pin_count` is zero fails with
Underflow. -/
theorem set_pinned_false_zero_eq (s : PoolState) (id : BufferPoolKey) (bid : Nat)
    (md : PageTableItemMetadata)
    (hl : assocLookup s.buffer_map id = some bid)
    (ht : s.page_table[bid]? = some (.occupied md))
    (h0 : md.pin_count = 0) :
    set_pinned s id false = .err .underflow s := by
  simp [set_pinned, hl, ht, h0]

/-- `N` pins on a resident entry succeed and raise its `pin_count` by `N`,
leaving the key-to-frame map unchanged. -/
theorem iterPin_true_eq (id : BufferPoolKey) (N : Nat) :
    ∀ (s : PoolState) (bid : Nat) (md : PageTableItemMetadata),
      assocLookup s.buffer_map id = some bid →
      s.page_table[bid]? = some (.occupied md) →
      ∃ s₁, iterPin id true N s = .ok s₁ () ∧
        s₁.buffer_map = s.buffer_map ∧
        s₁.page_table[bid]?
          = some (.occupied { md with pin_count := md.pin_count + N }) := by
  induction N with
  | zero =>
    intro s bid md hl ht
    exact ⟨s, rfl, rfl, by simpa using ht⟩
  | succ n ih =>
    intro s bid md hl ht
    have hstep := set_pinned_true_eq s id bid md hl ht
    have hlt : bid < s.page_table.length := get?_some_lt ht
    have ht' : (setMeta s bid { md with pin_count := md.pin_count + 1 }).page_table[bid]?
        = some (.occupied { md with pin_count := md.pin_count + 1 }) :=
      get?_set_self s.page_table bid _ hlt
    obtain ⟨s₁, h₁, hbm, hpt⟩ :=
      ih (setMeta s bid { md with pin_count := md.pin_count + 1 }) bid _ hl ht'
    refine ⟨s₁, ?_, hbm, ?_⟩
    · show iterPin id true (n + 1) s = .ok s₁ ()
      unfold iterPin
      rw [hstep]
      exact h₁
    · have he : ({ md with pin_count := md.pin_count + 1 } :
          PageTableItemMetadata).pin_count + n = md.pin_count + (n + 1) := by
        show md.pin_count + 1 + n = md.pin_count + (n + 1)
        omega
      rw [he] at hpt
      exact hpt

/-- `N` unpins on a resident entry with `pin_count = p + N` succeed and lower
its `pin_count` to `p`, leaving the key-to-frame map unchanged. -/
theorem iterPin_false_eq (id : BufferPoolKey) (N : Nat) :
    ∀ (s : PoolState) (bid : Nat) (md : PageTableItemMetadata) (p : Nat),
      assocLookup s.buffer_map id = some bid →
      s.page_table[bid]? = some (.occupied md) →
      md.pin_count = p + N →
      ∃ s₂, iterPin id false N s = .ok s₂ () ∧
        s₂.buffer_map = s.buffer_map ∧
        s₂.page_table[bid]? = some (.occupied { md with pin_count := p }) := by
  induction N with
  | zero =>
    intro s bid md p hl ht hp
    refine ⟨s, rfl, rfl, ?_⟩
    have hpe : p = md.pin_count := by omega
    subst hpe
    exact ht
  | succ n ih =>
    intro s bid md p hl ht hp
    have hpos : md.pin_count ≠ 0 := by omega
    have hstep := set_pinned_false_pos_eq s id bid md hl ht hpos
    have hlt : bid < s.page_table.length := get?_some_lt ht
    have ht' : (setMeta s bid { md with pin_count := md.pin_count - 1 }).page_table[bid]?
        = some (.occupied { md with pin_count := md.pin_count - 1 }) :=
      get?_set_self s.page_table bid _ hlt
    have hp' : ({ md with pin_count := md.pin_count - 1 } :
        PageTableItemMetadata).pin_count = p + n := by
      show md.pin_count - 1 = p + n
      omega
    obtain ⟨s₂, h₂, hbm, hpt⟩ :=
      ih (setMeta s bid { md with pin_count := md.pin_count - 1 }) bid _ p hl ht' hp'
    refine ⟨s₂, ?_, hbm, ?_⟩
    · unfold iterPin
      rw [hstep]
      exact h₂
    · exact hpt

/-- C6: pinning is a reference count (spec-modelled, `set_page_pinned_state`
is `todo` in the source): from a resident entry with `pin_count = 0`, `N`
pins succeed and leave `pin_count = N`, the following `N` unpins succeed and
return `pin_count` to 0, and one more unpin fails with Underflow — a
recoverable error, not silent saturation at 0. -/
theorem c6_pin_refcount (s : PoolState) (id : BufferPoolKey) (bid : Nat)
    (md : PageTableItemMetadata) (N : Nat)
    (hl : assocLookup s.buffer_map id = some bid)
    (ht : s.page_table[bid]? = some (.occupied md))
    (h0 : md.pin_count = 0) :
    ∃ s₁ s₂, iterPin id true N s = .ok s₁ () ∧ pinCountOf s₁ id = some N ∧
      iterPin id false N s₁ = .ok s₂ () ∧ pinCountOf s₂ id = some 0 ∧
      set_pinned s₂ id false = .err .underflow s₂ ∧
      PoolErr.underflow.isPanic = false := by
  obtain ⟨s₁, h₁, hbm₁, hpt₁⟩ := iterPin_true_eq id N s bid md hl ht
  rw [h0, Nat.zero_add] at hpt₁
  have hl₁ : assocLookup s₁.buffer_map id = some bid := by
    rw [hbm₁]
    exact hl
  obtain ⟨s₂, h₂, hbm₂, hpt₂⟩ :=
    iterPin_false_eq id N s₁ bid { md with pin_count := N } 0 hl₁ hpt₁
      (by show N = 0 + N; omega)
  have hl₂ : assocLookup s₂.buffer_map id = some bid := by
    rw [hbm₂]
    exact hl₁
  refine ⟨s₁, s₂, h₁, ?_, h₂, ?_, ?_, rfl⟩
  · simp [pinCountOf, hl₁, hpt₁]
  · simp [pinCountOf, hl₂, hpt₂]
  · exact set_pinned_false_zero_eq s₂ id bid _ hl₂ hpt₂ rfl

/-- C6 witness: a one-frame pool with the resident key `("t", 0)` unpinned,
`N = 2`. -/
theorem c6_pin_refcount_witness :
    ∃ s₁ s₂,
      iterPin ("t", 0) true 2 ⟨1, 2, [(("t", 0), 0)], [.occupied ⟨0, 0, 0⟩], [0, 0]⟩
        = .ok s₁ () ∧
      pinCountOf s₁ ("t", 0) = some 2 ∧
      iterPin ("t", 0) false 2 s₁ = .ok s₂ () ∧
      pinCountOf s₂ ("t", 0) = some 0 ∧
      set_pinned s₂ ("t", 0) false = .err .underflow s₂ ∧
      PoolErr.underflow.isPanic = false :=
  c6_pin_refcount ⟨1, 2, [(("t", 0), 0)], [.occupied ⟨0, 0, 0⟩], [0, 0]⟩
    ("t", 0) 0 ⟨0, 0, 0⟩ 2 (by decide) (by decide) (by decide)

/-- The candidate list is sorted by strictly increasing frame index. -/
theorem candidates_pairwise (s : PoolState) :
    (candidates s).Pairwise (fun a c => a.1 < c.1) := by
  unfold candidates
  rw [List.pairwise_filterMap]
  refine List.Pairwise.imp ?_ (List.pairwise_lt_range s.entries_count)
  intro a b hab x hx y hy
  have hxa : x.1 = a := by
    rcases hg : s.page_table[a]? with _ | item
    · rw [hg] at hx
      simp at hx
    · cases item with
      | free nf =>
        rw [hg] at hx
        simp at hx
      | occupied md =>
        rw [hg] at hx
        simp only [Option.mem_def] at hx
        by_cases hp : md.pin_count = 0
        · rw [if_pos hp] at hx
          injection hx with hx
          rw [← hx]
        · rw [if_neg hp] at hx
          exact absurd hx (by simp)
  have hyb : y.1 = b := by
    rcases hg : s.page_table[b]? with _ | item
    · rw [hg] at hy
      simp at hy
    · cases item with
      | free nf =>
        rw [hg] at hy
        simp at hy
      | occupied md =>
        rw [hg] at hy
        simp only [Option.mem_def] at hy
        by_cases hp : md.pin_count = 0
        · rw [if_pos hp] at hy
          injection hy with hy
          rw [← hy]
        · rw [if_neg hp] at hy
          exact absurd hy (by simp)
  rw [hxa, hyb]
  exact hab

/-- Membership in the candidate list characterised through `isCandidate` and
`accessOf`. -/
theorem candidates_mem (s : PoolState) (i a : Nat) :
    (i, a) ∈ candidates s ↔ (isCandidate s i = true ∧ accessOf s i = a) := by
  unfold candidates isCandidate accessOf
  rw [List.mem_filterMap]
  constructor
  · rintro ⟨j, hj, hfj⟩
    rw [List.mem_range] at hj
    rcases hg : s.page_table[j]? with _ | item
    · rw [hg] at hfj
      simp at hfj
    · cases item with
      | free nf =>
        rw [hg] at hfj
        simp at hfj
      | occupied md =>
        rw [hg] at hfj
        simp only [] at hfj
        by_cases hp : md.pin_count = 0
        · rw [if_pos hp] at hfj
          injection hfj with hfj
          rw [Prod.mk.injEq] at hfj
          obtain ⟨hji, hacc⟩ := hfj
          subst hji
          constructor
          · simp [hj, hg, hp]
          · simp [hg, hacc]
        · rw [if_neg hp] at hfj
          exact absurd hfj (by simp)
  · rintro ⟨hc, ha⟩
    rw [Bool.and_eq_true] at hc
    obtain ⟨h1, h2⟩ := hc
    refine ⟨i, List.mem_range.mpr (of_decide_eq_true h1), ?_⟩
    rcases hg : s.page_table[i]? with _ | item
    · rw [hg] at h2
      simp at h2
    · cases item with
      | free nf =>
        rw [hg] at h2
        simp at h2
      | occupied md =>
        rw [hg] at h2
        simp only [] at h2
        have hp : md.pin_count = 0 := by simpa using h2
        rw [hg] at ha
        simp only [] at ha
        simp [hp, ha]

/-- Minimality of the accumulator scan on an index-sorted list: the result is
an element whose access count is strictly below every other element's, or
equal with a lower (or equal) index — the earliest minimum wins. -/
theorem pickMin_go (l : List (Nat × Nat)) :
    ∀ b : Nat × Nat, (b :: l).Pairwise (fun a c => a.1 < c.1) →
      ∃ m, pickMin (some b) l = some m ∧ m ∈ b :: l ∧
        ∀ x ∈ b :: l, m.2 < x.2 ∨ (m.2 = x.2 ∧ m.1 ≤ x.1) := by
  induction l with
  | nil =>
    intro b _
    refine ⟨b, rfl, List.mem_singleton.mpr rfl, ?_⟩
    intro x hx
    rw [List.mem_singleton] at hx
    subst hx
    right
    exact ⟨rfl, Nat.le_refl _⟩
  | cons c rest ih =>
    intro b hsort
    rw [List.pairwise_cons] at hsort
    obtain ⟨hb, hsort'⟩ := hsort
    have hc : ∀ x ∈ rest, c.1 < x.1 := (List.pairwise_cons.mp hsort').1
    have hrest : rest.Pairwise (fun a d => a.1 < d.1) := (List.pairwise_cons.mp hsort').2
    by_cases hcb : c.2 < b.2
    · obtain ⟨m, hm, hmem, hmin⟩ := ih c hsort'
      have hpm : pickMin (some b) (c :: rest) = pickMin (some c) rest := by
        show pickMin (some (if c.2 < b.2 then c else b)) rest = _
        rw [if_pos hcb]
      refine ⟨m, ?_, List.mem_cons_of_mem b hmem, ?_⟩
      · rw [hpm]
        exact hm
      · intro x hx
        rcases List.mem_cons.mp hx with hxb | hx'
        · subst hxb
          left
          rcases hmin c (List.mem_cons_self c rest) with h | ⟨h, _⟩ <;> omega
        · exact hmin x hx'
    · have hb' : ∀ x ∈ rest, b.1 < x.1 := fun x hx => hb x (List.mem_cons_of_mem c hx)
      have hs' : (b :: rest).Pairwise (fun a d => a.1 < d.1) :=
        List.pairwise_cons.mpr ⟨hb', hrest⟩
      obtain ⟨m, hm, hmem, hmin⟩ := ih b hs'
      have hpm : pickMin (some b) (c :: rest) = pickMin (some b) rest := by
        show pickMin (some (if c.2 < b.2 then c else b)) rest = _
        rw [if_neg hcb]
      refine ⟨m, ?_, ?_, ?_⟩
      · rw [hpm]
        exact hm
      · rcases List.mem_cons.mp hmem with h | h
        · subst h
          exact List.mem_cons_self _ _
        · exact List.mem_cons_of_mem b (List.mem_cons_of_mem c h)
      · intro x hx
        rcases List.mem_cons.mp hx with hxb | hx'
        · subst hxb
          exact hmin x (List.mem_cons_self _ rest)
        · rcases List.mem_cons.mp hx' with hxc | hx''
          · subst hxc
            have hmb := hmin b (List.mem_cons_self b rest)
            have hbc2 : b.2 ≤ x.2 := Nat.le_of_not_lt hcb
            have hbc1 : b.1 < x.1 := hb x (List.mem_cons_self x rest)
            rcases hmb with h | ⟨h2, h1⟩
            · left
              omega
            · by_cases hbc : b.2 = x.2
              · right
                exact ⟨by omega, by omega⟩
              · left
                omega
          · exact hmin x (List.mem_cons_of_mem b hx'')

/-- The spec-modelled victim is a candidate with minimal `access_count`,
ties broken by lowest frame index. -/
theorem select_victim_spec (s : PoolState) (v : Nat)
    (h : select_victim s = some v) :
    isCandidate s v = true ∧ ∀ u, isCandidate s u = true →
      accessOf s v < accessOf s u ∨ (accessOf s v = accessOf s u ∧ v ≤ u) := by
  unfold select_victim at h
  rw [Option.map_eq_some'] at h
  obtain ⟨m, hm, hv⟩ := h
  rcases hcand : candidates s with _ | ⟨c, rest⟩
  · rw [hcand] at hm
    exact absurd hm (by simp [pickMin])
  · rw [hcand] at hm
    have hsorted : (c :: rest).Pairwise (fun a d => a.1 < d.1) := by
      rw [← hcand]
      exact candidates_pairwise s
    obtain ⟨m', hm'', hmem, hmin⟩ := pickMin_go rest c hsorted
    have hm' : pickMin (some c) rest = some m := hm
    rw [hm''] at hm'
    injection hm' with heq
    rw [heq] at hmem hmin
    have hmc : (m.1, m.2) ∈ candidates s := by
      rw [hcand]
      exact hmem
    rw [candidates_mem] at hmc
    obtain ⟨hcand1, hacc⟩ := hmc
    subst hv
    refine ⟨hcand1, ?_⟩
    intro u hu
    have huc : (u, accessOf s u) ∈ candidates s := (candidates_mem s u _).mpr ⟨hu, rfl⟩
    rw [hcand] at huc
    have hx := hmin (u, accessOf s u) huc
    rw [hacc]
    simpa using hx

/-- With no candidate (everything pinned or free), no victim is selected. -/
theorem select_victim_none (s : PoolState)
    (h : ∀ u, isCandidate s u = false) : select_victim s = none := by
  have hcand : candidates s = [] := by
    rcases hc : candidates s with _ | ⟨c, rest⟩
    · rfl
    · exfalso
      have hmem : (c.1, c.2) ∈ candidates s := by
        rw [hc]
        exact List.mem_cons_self c rest
      rw [candidates_mem] at hmem
      rw [h c.1] at hmem
      exact absurd hmem.1 (by simp)
  unfold select_victim
  rw [hcand]
  rfl

/-- C1 (spec-modelled: `load_page` is `todo` in the source; the eviction
policy and PoolExhausted outcome follow spec section 4.3, the free-frame scan
is the source's `find_first_free_index`): when a load of an absent key finds
no free frame, the victim — when one exists — is an unpinned resident entry
with the lowest `access_count`, ties broken by lowest frame index, and the
load proceeds by evicting exactly that frame; when no resident entry has
`pin_count == 0`, `load_page` fails with PoolExhausted, which is a
recoverable error, not a panic. -/
theorem c1_eviction_policy (s : PoolState) (id : BufferPoolKey) (bytes : List Nat)
    (hbytes : bytes.length = s.page_size)
    (habsent : assocLookup s.buffer_map id = none)
    (hnofree : find_free_frame s = none) :
    (∀ v, select_victim s = some v → isCandidate s v = true ∧
      ∀ u, isCandidate s u = true →
        accessOf s v < accessOf s u ∨ (accessOf s v = accessOf s u ∧ v ≤ u)) ∧
    (∀ v, select_victim s = some v →
      load_page s id bytes = installAt (evictFrame s v) id v bytes) ∧
    ((∀ u, isCandidate s u = false) →
      load_page s id bytes = .err .poolExhausted s ∧
        PoolErr.poolExhausted.isPanic = false) := by
  refine ⟨fun v hv => select_victim_spec s v hv, fun v hv => ?_, fun hall => ?_⟩
  · unfold load_page
    rw [if_neg (by omega), habsent]
    simp only []
    rw [hnofree]
    simp only []
    rw [hv]
  · refine ⟨?_, rfl⟩
    unfold load_page
    rw [if_neg (by omega), habsent]
    simp only []
    rw [hnofree]
    simp only []
    rw [select_victim_none s hall]

/-- C1 witness: a full two-frame pool (`page_size = 2`), both entries
unpinned with access counts 5 and 3, loading a third key. -/
theorem c1_eviction_policy_witness :
    (∀ v, select_victim ⟨2, 2, [(("t", 0), 0), (("t", 1), 1)],
        [.occupied ⟨5, 0, 0⟩, .occupied ⟨3, 0, 0⟩], [1, 1, 2, 2]⟩ = some v →
      isCandidate ⟨2, 2, [(("t", 0), 0), (("t", 1), 1)],
        [.occupied ⟨5, 0, 0⟩, .occupied ⟨3, 0, 0⟩], [1, 1, 2, 2]⟩ v = true ∧
      ∀ u, isCandidate ⟨2, 2, [(("t", 0), 0), (("t", 1), 1)],
          [.occupied ⟨5, 0, 0⟩, .occupied ⟨3, 0, 0⟩], [1, 1, 2, 2]⟩ u = true →
        accessOf ⟨2, 2, [(("t", 0), 0), (("t", 1), 1)],
          [.occupied ⟨5, 0, 0⟩, .occupied ⟨3, 0, 0⟩], [1, 1, 2, 2]⟩ v
          < accessOf ⟨2, 2, [(("t", 0), 0), (("t", 1), 1)],
            [.occupied ⟨5, 0, 0⟩, .occupied ⟨3, 0, 0⟩], [1, 1, 2, 2]⟩ u ∨
        (accessOf ⟨2, 2, [(("t", 0), 0), (("t", 1), 1)],
          [.occupied ⟨5, 0, 0⟩, .occupied ⟨3, 0, 0⟩], [1, 1, 2, 2]⟩ v
          = accessOf ⟨2, 2, [(("t", 0), 0), (("t", 1), 1)],
            [.occupied ⟨5, 0, 0⟩, .occupied ⟨3, 0, 0⟩], [1, 1, 2, 2]⟩ u ∧ v ≤ u)) ∧
    (∀ v, select_victim ⟨2, 2, [(("t", 0), 0), (("t", 1), 1)],
        [.occupied ⟨5, 0, 0⟩, .occupied ⟨3, 0, 0⟩], [1, 1, 2, 2]⟩ = some v →
      load_page ⟨2, 2, [(("t", 0), 0), (("t", 1), 1)],
          [.occupied ⟨5, 0, 0⟩, .occupied ⟨3, 0, 0⟩], [1, 1, 2, 2]⟩ ("t", 2) [9, 9]
        = installAt (evictFrame ⟨2, 2, [(("t", 0), 0), (("t", 1), 1)],
            [.occupied ⟨5, 0, 0⟩, .occupied ⟨3, 0, 0⟩], [1, 1, 2, 2]⟩ v)
            ("t", 2) v [9, 9]) ∧
    ((∀ u, isCandidate ⟨2, 2, [(("t", 0), 0), (("t", 1), 1)],
        [.occupied ⟨5, 0, 0⟩, .occupied ⟨3, 0, 0⟩], [1, 1, 2, 2]⟩ u = false) →
      load_page ⟨2, 2, [(("t", 0), 0), (("t", 1), 1)],
          [.occupied ⟨5, 0, 0⟩, .occupied ⟨3, 0, 0⟩], [1, 1, 2, 2]⟩ ("t", 2) [9, 9]
        = .err .poolExhausted ⟨2, 2, [(("t", 0), 0), (("t", 1), 1)],
            [.occupied ⟨5, 0, 0⟩, .occupied ⟨3, 0, 0⟩], [1, 1, 2, 2]⟩ ∧
        PoolErr.poolExhausted.isPanic = false) :=
  c1_eviction_policy ⟨2, 2, [(("t", 0), 0), (("t", 1), 1)],
      [.occupied ⟨5, 0, 0⟩, .occupied ⟨3, 0, 0⟩], [1, 1, 2, 2]⟩
    ("t", 2) [9, 9] (by decide) (by decide) (by decide)

end ArcadiaDB
